import Mathlib

/-!
Shallow embedding of `repo2docker/buildpacks/plain/__init__.py`
(`PlainBuildPack`): the apt.txt package-list validator
(`get_preassemble_scripts`), the (user, script) → directive grouper used by
`render`, the Jinja template `TEMPLATE` at the level of the instruction
sequence it emits, and the `build` method's tar-archive construction and
memory-limit handling.

Conventions: Python strings are Lean `String`s; Python `sorted` on strings
is code-point lexicographic, embedded as insertion sort under `pyStrLe`;
filesystem-dependent getters (`binder_path`, file existence) are inputs of
the model (`Config`); machine-level concerns do not arise (no overflow in
any of this code).
-/

namespace Plain

/-! ### Python string primitives -/

/-- Python `str.partition("#")[0]`: the text before the first `#`. -/
def partBeforeHash (s : String) : String :=
  String.mk (s.data.takeWhile (fun c => c ≠ '#'))

/-- The characters Python `str.strip()` removes. -/
def isPyWs (c : Char) : Bool :=
  c = ' ' || c = '\t' || c = '\n' || c = '\r' || c = '\x0b' || c = '\x0c'

/-- Python `str.strip()`: drop leading and trailing whitespace. -/
def pyStrip (s : String) : String :=
  String.mk (((s.data.dropWhile isPyWs).reverse.dropWhile isPyWs).reverse)

/-- Python `str.strip("\n")`: drop leading and trailing newline characters. -/
def stripNewlines (s : String) : String :=
  String.mk (((s.data.dropWhile (· = '\n')).reverse.dropWhile (· = '\n')).reverse)

/-- Code-point lexicographic comparison on character lists, the order Python
uses to sort strings. -/
def lexLe : List Char → List Char → Bool
  | [], _ => true
  | _ :: _, [] => false
  | a :: as, b :: bs =>
    if a.toNat < b.toNat then true
    else if b.toNat < a.toNat then false
    else lexLe as bs

/-- Python's `<=` on strings. -/
def pyStrLe (a b : String) : Prop := lexLe a.data b.data = true

instance : DecidableRel pyStrLe := fun _ _ => instDecidableEqBool _ _

/-- Python `sorted` on a list of strings (sorted output; stable, but for a
total order on the keys the result is determined by the multiset alone). -/
def pySorted (l : List String) : List String := List.insertionSort pyStrLe l

/-! ### 4.1 Package-name validation: `get_preassemble_scripts` -/

/-- The character class `[a-z0-9.+-]` of the validation regex. -/
def aptCharOk (c : Char) : Bool :=
  (97 ≤ c.toNat && c.toNat ≤ 122) || (48 ≤ c.toNat && c.toNat ≤ 57) ||
    c = '.' || c = '+' || c = '-'

/-- `re.match(r"^[a-z0-9.+-]+", package)` succeeds iff the string is nonempty
and its first character lies in the class (`re.match` anchors at the start
only; one matching character suffices, later characters are unconstrained). -/
def matchAptName (s : String) : Bool :=
  match s.data with
  | [] => false
  | c :: _ => aptCharOk c

/-- The `ValueError` message raised for an invalid package name. -/
def invalidPkgMsg (package : String) : String :=
  "Found invalid package name " ++ package ++ " in apt.txt"

/-- The loop over the lines of `apt.txt`: strip the comment suffix and
whitespace, skip blank results, reject names whose leading character is
outside `[a-z0-9.+-]`, and collect the rest in order. -/
def parseAptLines : List String → Except String (List String)
  | [] => .ok []
  | l :: ls =>
    let package := pyStrip (partBeforeHash l)
    if package.data.isEmpty then
      parseAptLines ls
    else if matchAptName package then
      match parseAptLines ls with
      | .ok rest => .ok (package :: rest)
      | .error e => .error e
    else
      .error (invalidPkgMsg package)

/-- The install script built by `get_preassemble_scripts`, with the
space-joined package list interpolated by `str.format` into the raw
triple-quoted template. -/
def aptInstallScript (pkglist : String) : String :=
  "\n                apt-get -qq update && \\\n                apt-get install --yes --no-install-recommends "
    ++ pkglist ++
    " && \\\n                apt-get -qq purge && \\\n                apt-get -qq clean && \\\n                rm -rf /var/lib/apt/lists/*\n                "

/-- `PlainBuildPack.get_preassemble_scripts`. The input is the list of lines
of `apt.txt` when that file exists, `none` when opening it raises
`FileNotFoundError` (in which case the scripts list stays empty). When the
file exists, one `("root", install script)` step is appended
unconditionally, its package list sorted and space-joined. -/
def get_preassemble_scripts (aptTxt : Option (List String)) :
    Except String (List (String × String)) :=
  match aptTxt with
  | none => .ok []
  | some lines =>
    match parseAptLines lines with
    | .error e => .error e
    | .ok pkgs =>
      .ok [("root", aptInstallScript (String.intercalate " " (pySorted pkgs)))]

/-! ### `textwrap.dedent` (used by `render` on every script body) -/

/-- Space or tab, the characters `textwrap.dedent` treats as indentation. -/
def isSpaceTab (c : Char) : Bool := c = ' ' || c = '\t'

/-- `dedent` first blanks lines that consist solely of `[ \t]+`
(`_whitespace_only_re.sub('', text)`). -/
def dedentNormLine (l : List Char) : List Char :=
  if !l.isEmpty && l.all isSpaceTab then [] else l

/-- The leading `[ \t]*` of a line that still has a character after it
(`_leading_whitespace_re`): `none` for lines with no content. -/
def lineIndent (l : List Char) : Option (List Char) :=
  if (l.dropWhile isSpaceTab).isEmpty then none else some (l.takeWhile isSpaceTab)

/-- Longest common prefix, which is what `dedent`'s margin-update cases
compute in every branch. -/
def commonIndent : List Char → List Char → List Char
  | a :: as, b :: bs => if a = b then a :: commonIndent as bs else []
  | _, _ => []

/-- The common margin of all content-bearing lines. -/
def dedentMargin (indents : List (List Char)) : List Char :=
  match indents with
  | [] => []
  | i :: rest => rest.foldl commonIndent i

/-- `leadsWith p l` iff `p` is an initial segment of `l`. -/
def leadsWith : List Char → List Char → Bool
  | [], _ => true
  | _ :: _, [] => false
  | a :: as, b :: bs => a = b && leadsWith as bs

/-- `re.sub(r'(?m)^' + margin, '', text)`: remove the margin where a line
starts with it (blanked whitespace-only lines do not, and stay as they are). -/
def removeMargin (margin l : List Char) : List Char :=
  if leadsWith margin l then l.drop margin.length else l

/-- Python `textwrap.dedent`. -/
def pyDedent (s : String) : String :=
  let lines := (s.data.splitOn '\n').map dedentNormLine
  let margin := dedentMargin (lines.filterMap lineIndent)
  String.mk (List.intercalate ['\n'] (lines.map (removeMargin margin)))

/-! ### 4.2 The directive grouper inside `render` -/

/-- The two kinds of strings the grouping loops of `render` append:
`"USER {user}"` and `"RUN {dedented script}"`. -/
inductive GDirective where
  | userSwitch (user : String)
  | runScript (body : String)
deriving DecidableEq, Repr

/-- The exact string a grouped directive stands for. -/
def directiveText : GDirective → String
  | .userSwitch u => "USER " ++ u
  | .runScript b => "RUN " ++ b

/-- One grouping loop of `render`, threading `last_user`: a `USER` directive
is emitted only when the step's user differs from `last_user`, then the
step's body (newline-stripped and dedented) is emitted as a `RUN`. -/
def groupScriptsAux (lastUser : String) : List (String × String) → List GDirective
  | [] => []
  | (user, script) :: rest =>
    let runD := GDirective.runScript (pyDedent (stripNewlines script))
    if user = lastUser then runD :: groupScriptsAux lastUser rest
    else .userSwitch user :: runD :: groupScriptsAux user rest

/-- The grouping loop with `last_user` initialized to `"root"`, as in all
three loops of `render`. -/
def groupScripts (steps : List (String × String)) : List GDirective :=
  groupScriptsAux "root" steps

/-! ### The template, at the level of the instruction sequence it emits -/

/-- One instruction of the rendered document. Each constructor corresponds
to one textual instruction of `TEMPLATE`; `scriptDirective` is a spliced
`{{ sd }}` string from one of the three grouping loops. `workdir` is in
the template behind `{% if workdir %}` but `render` never passes
`workdir`, so it is never emitted. -/
inductive Instr where
  | fromImage (image : String)
  | env (key value : String)
  | runAptInstall (packages : List String)
  | envPath (path : List String)
  | copy (src dst : String)
  | copySrc (src dst : String)
  | scriptDirective (text : String)
  | workdir
  | user (name : String)
  | run (command : String)
  | label (key value : String)
  | entrypoint (value : String)
  | cmd (value : String)
deriving DecidableEq, Repr

/-- ASCII lowercasing of the key, as jinja2's `dictsort` compares keys
case-insensitively by default. -/
def lowerKey (s : String) : String := String.mk (s.data.map Char.toLower)

/-- The `dictsort` order on dict items: by lowercased key. -/
def dictsortLe (a b : String × String) : Prop :=
  pyStrLe (lowerKey a.1) (lowerKey b.1)

instance : DecidableRel dictsortLe := fun _ _ => instDecidableEqBool _ _

/-- jinja2 `dictsort`: dict items sorted by key. -/
def dictsort (l : List (String × String)) : List (String × String) :=
  List.insertionSort dictsortLe l

/-- The getter results `render` and `build` read. Every field is the value
returned by the corresponding `self.get_*` call (configuration and
filesystem probing live outside this module): `packages` lists the elements
of the set `get_packages()` returns, `aptTxt` is the line list of `apt.txt`
when it exists, `postBuild`/`start` are `binder_path(...)` when that file
exists. -/
structure Config where
  packages : List String
  path : List String
  build_env : List (String × String)
  env : List (String × String)
  labels : List (String × String)
  build_script_files : List (String × String)
  preassemble_script_files : List (String × String)
  build_scripts : List (String × String)
  assemble_scripts : List (String × String)
  aptTxt : Option (List String)
  postBuild : Option String
  start : Option String
deriving DecidableEq, Repr

/-- `PlainBuildPack.get_post_build_scripts`. -/
def get_post_build_scripts (cfg : Config) : List String :=
  match cfg.postBuild with
  | some p => [p]
  | none => []

/-- `PlainBuildPack.get_start_script`: the absolute `${REPO_DIR}`-anchored
path when the start file exists. -/
def get_start_script (cfg : Config) : Option String :=
  cfg.start.map (fun s => "${REPO_DIR}/" ++ s)

/-- The spliced `{{ sd }}` instructions of one grouping loop. -/
def scriptDirectiveInstrs (steps : List (String × String)) : List Instr :=
  (groupScripts steps).map (fun d => Instr.scriptDirective (directiveText d))

/-- The ownership-fixup command of the template block guarded by
`{% if preassemble_script_directives %}`. -/
def chownCmd : String := "chown -R ${NB_USER}:${NB_USER} ${REPO_DIR}"

/-- `PlainBuildPack.render`, as the sequence of instructions the template
emits for the given context. `sorted(get_packages())` on a Python set is
the sorted duplicate-free list of its elements. `set_up_apt`,
`set_up_locales`, `base_packages` and `workdir` are not passed to
`Template.render`, so (jinja2 treats undefined as falsy) their blocks emit
nothing. `cmd` and `entrypoint` are hardcoded to `"my_command"` and
`"my_entrypoint"`, so their blocks always emit. -/
def renderBody (cfg : Config) (pre : List (String × String)) : List Instr :=
    let packages := pySorted cfg.packages.dedup
    let psd := scriptDirectiveInstrs pre
    (
      [Instr.fromImage "buildpack-deps:bionic"]
      ++ (if packages.isEmpty then [] else [Instr.runAptInstall packages])
      ++ cfg.build_env.map (fun kv => Instr.env kv.1 kv.2)
      ++ (if cfg.path.isEmpty then [] else [Instr.envPath cfg.path])
      ++ (dictsort cfg.build_script_files).map (fun p => Instr.copy p.1 p.2)
      ++ scriptDirectiveInstrs cfg.build_scripts
      ++ cfg.env.map (fun kv => Instr.env kv.1 kv.2)
      ++ (dictsort cfg.preassemble_script_files).map (fun p => Instr.copySrc p.1 p.2)
      ++ (if psd.isEmpty then [] else [Instr.user "root", Instr.run chownCmd])
      ++ psd
      ++ scriptDirectiveInstrs cfg.assemble_scripts
      ++ (dictsort cfg.labels).map (fun p => Instr.label p.1 p.2)
      ++ (get_post_build_scripts cfg).flatMap
          (fun s => [Instr.run ("chmod +x " ++ s), Instr.run ("./" ++ s)])
      ++ (match get_start_script cfg with
          | some s => [Instr.run ("chmod +x \"" ++ s ++ "\""),
                       Instr.env "R2D_ENTRYPOINT" ("\"" ++ s ++ "\"")]
          | none => [])
      ++ [Instr.entrypoint "my_entrypoint", Instr.cmd "my_command"])

/-- `PlainBuildPack.render`: a package-name validation failure aborts it,
otherwise the template emits the instruction sequence of `renderBody`. -/
def renderInstrs (cfg : Config) : Except String (List Instr) :=
  match get_preassemble_scripts cfg.aptTxt with
  | .error e => .error e
  | .ok pre => .ok (renderBody cfg pre)

/-- A textual serialization of one instruction (the jinja2 whitespace detail
of multi-line blocks is abstracted; no claim depends on it — the rendered
document enters the model only as the payload of the archive's
`Dockerfile` entry). -/
def Instr.text : Instr → String
  | .fromImage i => "FROM " ++ i
  | .env k v => "ENV " ++ k ++ " " ++ v
  | .runAptInstall pkgs =>
    "RUN apt-get -qq update && apt-get -qq install --yes "
      ++ String.intercalate " " pkgs
      ++ " > /dev/null && apt-get -qq purge && apt-get -qq clean && rm -rf /var/lib/apt/lists/*"
  | .envPath p => "ENV PATH " ++ String.intercalate ":" p ++ ":${PATH}"
  | .copy s d => "COPY " ++ s ++ " " ++ d
  | .copySrc s d => "COPY src/" ++ s ++ " ${REPO_DIR}/" ++ d
  | .scriptDirective t => t
  | .workdir => "WORKDIR workdir"
  | .user u => "USER " ++ u
  | .run c => "RUN " ++ c
  | .label k v => "LABEL " ++ k ++ "=\"" ++ v ++ "\""
  | .entrypoint e => "ENTRYPOINT [\" " ++ e ++ "\"]"
  | .cmd c => "CMD [\"" ++ c ++ "\"]"

/-- The rendered document. -/
def renderText (instrs : List Instr) : String :=
  String.intercalate "\n" (instrs.map Instr.text)

/-! ### 4.5/4.6 `PlainBuildPack.build`: archive construction and invocation -/

/-- One staged file as the host filesystem reports it: the archive name it
is added under, its byte content, and the metadata `stat` returns
(permission bits, numeric owner and group, modification time, owner and
group names). -/
structure HostFile where
  path : String
  contents : String
  mode : Nat
  uid : Nat
  gid : Nat
  mtime : Nat
  uname : String
  gname : String
deriving DecidableEq, Repr

/-- One tar archive entry (the fields of a `tarfile.TarInfo` this code
touches; two archives are byte-identical iff their entry lists are equal). -/
structure TarEntry where
  name : String
  size : Nat
  contents : String
  mode : Nat
  uid : Nat
  gid : Nat
  mtime : Nat
  uname : String
  gname : String
deriving DecidableEq, Repr

/-- The `Dockerfile` entry: a fresh `TarInfo("Dockerfile")` keeps every
default (`mode 0o644`, `uid = gid = 0`, `mtime = 0`, empty owner names);
only `size` is set, to the byte length of the rendered document. No host
metadata and no clock enters this entry. -/
def dockerfileTarEntry (doc : String) : TarEntry :=
  { name := "Dockerfile", size := doc.utf8ByteSize, contents := doc,
    mode := 0o644, uid := 0, gid := 0, mtime := 0, uname := "", gname := "" }

/-- The entry `tar.add` creates for a host file before filtering: every
metadata field is taken from the host filesystem. -/
def hostTarEntry (f : HostFile) : TarEntry :=
  { name := f.path, size := f.contents.utf8ByteSize, contents := f.contents,
    mode := f.mode, uid := f.uid, gid := f.gid, mtime := f.mtime,
    uname := f.uname, gname := f.gname }

/-- `_filter_tar`: clear the owner/group names and force `uid`/`gid` to the
`NB_UID` build arg (default 1000; the source reads `NB_UID` for both).
`mode` and `mtime` are left untouched. -/
def filterTar (nbUid : Nat) (t : TarEntry) : TarEntry :=
  { t with uname := "", gname := "", uid := nbUid, gid := nbUid }

/-- The sort order `sorted(...)` applies to the staged files (by archive
name), and the order of the recursive `tar.add(".", "src/")` walk, whose
directory listings CPython sorts. -/
def pathLe (a b : HostFile) : Prop := pyStrLe a.path b.path

instance : DecidableRel pathLe := fun _ _ => instDecidableEqBool _ _

/-- The staged files in the deterministic order they are added. -/
def sortByPath (l : List HostFile) : List HostFile :=
  List.insertionSort pathLe l

/-- The archive `build` assembles: the `Dockerfile` entry first, then the
`build_script_files` in sorted order, then the repository tree under
`src/`, the latter two with `_filter_tar` applied to every entry. -/
def buildArchive (doc : String) (buildScriptFiles srcTree : List HostFile)
    (nbUid : Nat) : List TarEntry :=
  dockerfileTarEntry doc
    :: ((sortByPath buildScriptFiles).map (fun f => filterTar nbUid (hostTarEntry f))
        ++ (sortByPath srcTree).map (fun f => filterTar nbUid (hostTarEntry f)))

/-- The dynamic type of the `memory_limit` argument (the check is
`isinstance(memory_limit, int)`; a string is the spec's example of a
non-integer value). -/
inductive PyMemLimit where
  | int (n : Int)
  | str (s : String)
deriving DecidableEq, Repr

/-- `str(type(x))`, as interpolated into the error message. -/
def pyTypeName : PyMemLimit → String
  | .int _ => "<class 'int'>"
  | .str _ => "<class 'str'>"

/-- The `ValueError` message of the limit check. The source concatenates two
adjacent string literals `"...as an" "integer..."`, hence the missing
space. -/
def invalidLimitMsg (ml : PyMemLimit) : String :=
  "The memory limit has to be specified as aninteger but is '" ++ pyTypeName ml ++ "'"

/-- The externally observable milestones of one run of the `build`
generator. -/
inductive BuildEvent where
  | archiveBuilt
  | engineCalled
deriving DecidableEq, Repr

/-- What one run of `build` produces: the archive it assembled (empty when
it aborted before assembling one), the milestones reached in order, the
exception message if one was raised, and the `container_limits` passed to
`client.build`. -/
structure BuildOutcome where
  archive : List TarEntry
  events : List BuildEvent
  error : Option String
  containerLimits : List (String × Int)
deriving DecidableEq, Repr

/-- `PlainBuildPack.build`, as the sequence of steps of one generator run:
`self.render()` is evaluated first (a validation failure aborts before
anything is archived); then the tar archive is assembled; then the
`isinstance(memory_limit, int)` check runs — so a non-integer limit raises
*after* the archive exists; only then is `client.build` called, with
`container_limits = {"memory": m, "memswap": m}` for a truthy (non-zero)
integer limit and `{}` for a zero one. -/
def buildRun (cfg : Config) (memory_limit : PyMemLimit)
    (buildScriptFiles srcTree : List HostFile) (nbUid : Nat) : BuildOutcome :=
  match renderInstrs cfg with
  | .error e =>
    { archive := [], events := [], error := some e, containerLimits := [] }
  | .ok instrs =>
    let archive := buildArchive (renderText instrs) buildScriptFiles srcTree nbUid
    match memory_limit with
    | .int m =>
      { archive := archive, events := [.archiveBuilt, .engineCalled], error := none,
        containerLimits := if m = 0 then [] else [("memory", m), ("memswap", m)] }
    | .str s =>
      { archive := archive, events := [.archiveBuilt],
        error := some (invalidLimitMsg (.str s)), containerLimits := [] }

/-! ### Derived notions used by the theorems -/

/-- Whether a grouped directive is a `USER` switch. -/
def GDirective.isUserSwitch : GDirective → Bool
  | .userSwitch _ => true
  | .runScript _ => false

/-- Whether a grouped directive is a `RUN` of one script body. -/
def GDirective.isRunScript : GDirective → Bool
  | .userSwitch _ => false
  | .runScript _ => true

/-- Whether an instruction is the ownership-recursive-fixup `RUN chown`. -/
def isFixupChown : Instr → Bool
  | .run c => c == chownCmd
  | _ => false

/-- How often the ownership-fixup instruction occurs in a rendered
document. -/
def countFixup (l : List Instr) : Nat := l.countP isFixupChown

/-- The part of a staged file the file manifest itself determines: archive
name, byte content, permission bits, and modification time. The remaining
`HostFile` fields (`uid`, `gid`, `uname`, `gname`) are host-dependent
ownership metadata. -/
structure FileCore where
  path : String
  contents : String
  mode : Nat
  mtime : Nat
deriving DecidableEq, Repr

/-- Forget the host-dependent ownership metadata of a staged file. -/
def HostFile.core (f : HostFile) : FileCore :=
  ⟨f.path, f.contents, f.mode, f.mtime⟩

/-- The archive entry a staged file produces after `_filter_tar`, as a
function of its manifest part alone. -/
def coreEntry (nbUid : Nat) (c : FileCore) : TarEntry :=
  { name := c.path, size := c.contents.utf8ByteSize, contents := c.contents,
    mode := c.mode, uid := nbUid, gid := nbUid, mtime := c.mtime,
    uname := "", gname := "" }

/-- The sort order on manifest parts corresponding to `pathLe`. -/
def coreLe (a b : FileCore) : Prop := pyStrLe a.path b.path

instance : DecidableRel coreLe := fun _ _ => instDecidableEqBool _ _

/-- `sortByPath`, on manifest parts. -/
def sortCores (l : List FileCore) : List FileCore :=
  List.insertionSort coreLe l

instance {ε α : Type} [DecidableEq ε] [DecidableEq α] :
    DecidableEq (Except ε α) := fun a b =>
  match a, b with
  | .ok x, .ok y =>
    if h : x = y then isTrue (by rw [h])
    else isFalse (fun hh => by cases hh; exact h rfl)
  | .error x, .error y =>
    if h : x = y then isTrue (by rw [h])
    else isFalse (fun hh => by cases hh; exact h rfl)
  | .ok _, .error _ => isFalse (fun hh => by cases hh)
  | .error _, .ok _ => isFalse (fun hh => by cases hh)

/-- The empty configuration: no packages, no scripts of any phase, no
staged files, no labels, no env entries, no `apt.txt`, no post-build or
start script. -/
def emptyConfig : Config :=
  { packages := [], path := [], build_env := [], env := [], labels := [],
    build_script_files := [], preassemble_script_files := [],
    build_scripts := [], assemble_scripts := [], aptTxt := none,
    postBuild := none, start := none }

/-- A configuration with a non-empty pre-assembly file manifest but no
`apt.txt` (hence no pre-assembly script directives). -/
def c4Config : Config :=
  { emptyConfig with preassemble_script_files := [("data.txt", "data.txt")] }

/-- A configuration whose `apt.txt` exists but holds only comment-only and
whitespace-only lines. -/
def c10Config : Config :=
  { emptyConfig with aptTxt := some ["# comment only", "   ", "  # another"] }

/-- A configuration whose `apt.txt` holds one valid package line. -/
def aptCurlConfig : Config :=
  { emptyConfig with aptTxt := some ["curl"] }

/-- A staged repository file with a path distinct from the others, used to
exercise iteration-order independence. -/
def hostFileD : HostFile :=
  { path := "src/apt.txt", contents := "curl\n", mode := 420,
    uid := 501, gid := 20, mtime := 1690000000, uname := "alice", gname := "staff" }

/-- A staged repository file as a first host reports it. -/
def hostFileA : HostFile :=
  { path := "src/notebook.ipynb", contents := "cells", mode := 420,
    uid := 501, gid := 20, mtime := 1700000000, uname := "alice", gname := "staff" }

/-- The same staged file as a second host reports it: identical manifest
part, different ownership metadata. -/
def hostFileB : HostFile :=
  { path := "src/notebook.ipynb", contents := "cells", mode := 420,
    uid := 1042, gid := 1042, mtime := 1700000000, uname := "bob", gname := "bob" }

/-- The same staged file with a one-second-later modification time and
everything else identical. -/
def hostFileC : HostFile :=
  { hostFileA with mtime := 1700000001 }

/-! ### Order properties of the code-point comparison -/

theorem lexLe_total (a b : List Char) : lexLe a b = true ∨ lexLe b a = true := by
  induction a generalizing b with
  | nil => left; rfl
  | cons x xs ih =>
    cases b with
    | nil => right; rfl
    | cons y ys =>
      rcases Nat.lt_trichotomy x.toNat y.toNat with h | h | h
      · left; simp [lexLe, h]
      · have hx : ¬x.toNat < y.toNat := by omega
        have hy : ¬y.toNat < x.toNat := by omega
        rcases ih ys with h' | h'
        · left; simp [lexLe, hx, hy, h']
        · right; simp [lexLe, hx, hy, h']
      · right; simp [lexLe, h]

theorem lexLe_trans {a b c : List Char} (hab : lexLe a b = true)
    (hbc : lexLe b c = true) : lexLe a c = true := by
  induction a generalizing b c with
  | nil => rfl
  | cons x xs ih =>
    cases b with
    | nil => simp [lexLe] at hab
    | cons y ys =>
      cases c with
      | nil => simp [lexLe] at hbc
      | cons z zs =>
        by_cases hxy : x.toNat < y.toNat
        · by_cases hyz : y.toNat < z.toNat
          · have hxz : x.toNat < z.toNat := by omega
            simp [lexLe, hxz]
          · by_cases hzy : z.toNat < y.toNat
            · exfalso; simp [lexLe, hyz, hzy] at hbc
            · have hxz : x.toNat < z.toNat := by omega
              simp [lexLe, hxz]
        · by_cases hyx : y.toNat < x.toNat
          · exfalso; simp [lexLe, hxy, hyx] at hab
          · have hab' : lexLe xs ys = true := by
              simpa [lexLe, hxy, hyx] using hab
            by_cases hyz : y.toNat < z.toNat
            · have hxz : x.toNat < z.toNat := by omega
              simp [lexLe, hxz]
            · by_cases hzy : z.toNat < y.toNat
              · exfalso; simp [lexLe, hyz, hzy] at hbc
              · have hbc' : lexLe ys zs = true := by
                  simpa [lexLe, hyz, hzy] using hbc
                have hxz : ¬x.toNat < z.toNat := by omega
                have hzx : ¬z.toNat < x.toNat := by omega
                simp [lexLe, hxz, hzx, ih hab' hbc']

theorem char_toNat_inj {x y : Char} (h : x.toNat = y.toNat) : x = y := by
  apply Char.ext
  apply UInt32.ext
  exact h

theorem lexLe_antisymm {a b : List Char} (hab : lexLe a b = true)
    (hba : lexLe b a = true) : a = b := by
  induction a generalizing b with
  | nil =>
    cases b with
    | nil => rfl
    | cons y ys => simp [lexLe] at hba
  | cons x xs ih =>
    cases b with
    | nil => simp [lexLe] at hab
    | cons y ys =>
      by_cases hxy : x.toNat < y.toNat
      · exfalso; simp [lexLe, hxy] at hba; omega
      · by_cases hyx : y.toNat < x.toNat
        · exfalso; simp [lexLe, hxy, hyx] at hab
        · have hab' : lexLe xs ys = true := by simpa [lexLe, hxy, hyx] using hab
          have hba' : lexLe ys xs = true := by simpa [lexLe, hxy, hyx] using hba
          have hx : x = y := char_toNat_inj (by omega)
          rw [hx, ih hab' hba']

instance : IsTrans String pyStrLe :=
  ⟨fun _ _ _ hab hbc => lexLe_trans hab hbc⟩

instance : IsTotal String pyStrLe :=
  ⟨fun a b => lexLe_total a.data b.data⟩

instance : IsAntisymm String pyStrLe :=
  ⟨fun a b hab hba => by
    cases a; cases b
    exact congrArg String.mk (lexLe_antisymm hab hba)⟩

theorem pySorted_sorted (l : List String) : List.Sorted pyStrLe (pySorted l) :=
  List.sorted_insertionSort pyStrLe l

theorem pySorted_perm (l : List String) : (pySorted l).Perm l :=
  List.perm_insertionSort pyStrLe l

/-! ### Grouper lemmas -/

theorem groupAux_chain (last : String) (steps : List (String × String)) :
    List.Chain' (fun a b => a.isUserSwitch = true → b.isUserSwitch = false)
      (groupScriptsAux last steps) := by
  induction steps generalizing last with
  | nil => simp [groupScriptsAux]
  | cons s rest ih =>
    obtain ⟨user, script⟩ := s
    simp only [groupScriptsAux]
    split_ifs with h
    · rw [List.chain'_cons']
      refine ⟨fun y _ hy => absurd hy (by simp [GDirective.isUserSwitch]), ih last⟩
    · rw [List.chain'_cons', List.chain'_cons']
      refine ⟨fun y hy _ => ?_,
        fun y _ hy => absurd hy (by simp [GDirective.isUserSwitch]), ih user⟩
      have hey : GDirective.runScript (pyDedent (stripNewlines script)) = y := by
        simpa using hy
      rw [← hey]
      rfl

theorem groupAux_counts_same (u : String) (steps : List (String × String))
    (hall : ∀ p ∈ steps, p.1 = u) :
    (groupScriptsAux u steps).countP (·.isUserSwitch) = 0 ∧
      (groupScriptsAux u steps).countP (·.isRunScript) = steps.length := by
  induction steps with
  | nil => simp [groupScriptsAux]
  | cons s rest ih =>
    obtain ⟨user, script⟩ := s
    have hu : user = u := hall (user, script) (by simp)
    have hrest := ih (fun p hp => hall p (List.mem_cons_of_mem _ hp))
    simp only [groupScriptsAux]
    rw [if_pos hu]
    have hsw : (GDirective.runScript (pyDedent (stripNewlines script))).isUserSwitch
        = false := rfl
    have hrs : (GDirective.runScript (pyDedent (stripNewlines script))).isRunScript
        = true := rfl
    constructor
    · rw [List.countP_cons]
      simp [hsw, hrest.1]
    · rw [List.countP_cons]
      simp [hrs, hrest.2]

theorem groupAux_counts_diff (u last : String) (steps : List (String × String))
    (hall : ∀ p ∈ steps, p.1 = u) (hne : steps ≠ []) (hlast : last ≠ u) :
    (groupScriptsAux last steps).countP (·.isUserSwitch) = 1 ∧
      (groupScriptsAux last steps).countP (·.isRunScript) = steps.length := by
  cases steps with
  | nil => exact absurd rfl hne
  | cons s rest =>
    obtain ⟨user, script⟩ := s
    have hu : user = u := hall (user, script) (by simp)
    have hrest := groupAux_counts_same u rest
      (fun p hp => hall p (List.mem_cons_of_mem _ hp))
    have hcond : ¬user = last := by rw [hu]; exact fun h => hlast h.symm
    simp only [groupScriptsAux]
    rw [if_neg hcond, hu]
    have hsw : (GDirective.runScript (pyDedent (stripNewlines script))).isUserSwitch
        = false := rfl
    have hrs : (GDirective.runScript (pyDedent (stripNewlines script))).isRunScript
        = true := rfl
    have husw : (GDirective.userSwitch u).isUserSwitch = true := rfl
    have hurs : (GDirective.userSwitch u).isRunScript = false := rfl
    constructor
    · rw [List.countP_cons, List.countP_cons]
      simp [hsw, husw, hrest.1]
    · rw [List.countP_cons, List.countP_cons]
      simp [hrs, hurs, hrest.2]

/-! ### Fixup-count lemmas over the rendered instruction sequence -/

theorem countFixup_append (l1 l2 : List Instr) :
    countFixup (l1 ++ l2) = countFixup l1 + countFixup l2 :=
  List.countP_append _ _ _

theorem countFixup_eq_zero {l : List Instr}
    (h : ∀ i ∈ l, isFixupChown i = false) : countFixup l = 0 := by
  rw [countFixup, List.countP_eq_zero]
  intro a ha
  simp [h a ha]

theorem chmod_ne_chown (s : String) : ("chmod +x " ++ s) ≠ chownCmd := by
  intro h
  have h3 : ("chmod +x " ++ s).data.take 3 = chownCmd.data.take 3 := by rw [h]
  have hl : ("chmod +x " ++ s).data.take 3 = ['c', 'h', 'm'] := rfl
  have hr : chownCmd.data.take 3 = ['c', 'h', 'o'] := rfl
  rw [hl, hr] at h3
  exact absurd h3 (by decide)

theorem dotSlash_ne_chown (s : String) : ("./" ++ s) ≠ chownCmd := by
  intro h
  have h1 : ("./" ++ s).data.take 1 = chownCmd.data.take 1 := by rw [h]
  have hl : ("./" ++ s).data.take 1 = ['.'] := rfl
  have hr : chownCmd.data.take 1 = ['c'] := rfl
  rw [hl, hr] at h1
  exact absurd h1 (by decide)

theorem chmodQuote_ne_chown (s : String) :
    ("chmod +x \"" ++ s ++ "\"") ≠ chownCmd := by
  intro h
  have h3 : ("chmod +x \"" ++ s ++ "\"").data.take 3 = chownCmd.data.take 3 := by
    rw [h]
  have hl : ("chmod +x \"" ++ s ++ "\"").data.take 3 = ['c', 'h', 'm'] := rfl
  have hr : chownCmd.data.take 3 = ['c', 'h', 'o'] := rfl
  rw [hl, hr] at h3
  exact absurd h3 (by decide)

theorem countFixup_sdi (steps : List (String × String)) :
    countFixup (scriptDirectiveInstrs steps) = 0 :=
  countFixup_eq_zero (by
    intro i hi
    obtain ⟨d, _, rfl⟩ := List.mem_map.mp hi
    rfl)

theorem countFixup_postbuild (cfg : Config) :
    countFixup ((get_post_build_scripts cfg).flatMap
      (fun s => [Instr.run ("chmod +x " ++ s), Instr.run ("./" ++ s)])) = 0 := by
  apply countFixup_eq_zero
  intro i hi
  obtain ⟨s, _, hs⟩ := List.mem_flatMap.mp hi
  simp only [List.mem_cons, List.not_mem_nil, or_false] at hs
  rcases hs with h | h
  · rw [h]; simp [isFixupChown, chmod_ne_chown s]
  · rw [h]; simp [isFixupChown, dotSlash_ne_chown s]

theorem countFixup_start (cfg : Config) :
    countFixup (match get_start_script cfg with
      | some s => [Instr.run ("chmod +x \"" ++ s ++ "\""),
                   Instr.env "R2D_ENTRYPOINT" ("\"" ++ s ++ "\"")]
      | none => []) = 0 := by
  cases hs : get_start_script cfg with
  | none => rfl
  | some s =>
    apply countFixup_eq_zero
    intro i hi
    simp only [List.mem_cons, List.not_mem_nil, or_false] at hi
    rcases hi with h | h
    · rw [h]; simp [isFixupChown, chmodQuote_ne_chown s]
    · rw [h]; rfl

theorem countFixup_renderBody (cfg : Config) (pre : List (String × String)) :
    countFixup (renderBody cfg pre) =
      if (scriptDirectiveInstrs pre).isEmpty then 0 else 1 := by
  have hmap_env : ∀ l : List (String × String),
      countFixup (l.map fun kv => Instr.env kv.1 kv.2) = 0 := fun l =>
    countFixup_eq_zero (by
      intro i hi; obtain ⟨kv, _, rfl⟩ := List.mem_map.mp hi; rfl)
  have hmap_copy : countFixup
      ((dictsort cfg.build_script_files).map fun p => Instr.copy p.1 p.2) = 0 :=
    countFixup_eq_zero (by
      intro i hi; obtain ⟨p, _, rfl⟩ := List.mem_map.mp hi; rfl)
  have hmap_copySrc : countFixup
      ((dictsort cfg.preassemble_script_files).map fun p => Instr.copySrc p.1 p.2) = 0 :=
    countFixup_eq_zero (by
      intro i hi; obtain ⟨p, _, rfl⟩ := List.mem_map.mp hi; rfl)
  have hmap_label : countFixup
      ((dictsort cfg.labels).map fun p => Instr.label p.1 p.2) = 0 :=
    countFixup_eq_zero (by
      intro i hi; obtain ⟨p, _, rfl⟩ := List.mem_map.mp hi; rfl)
  have hpkg : countFixup
      (if (pySorted cfg.packages.dedup).isEmpty then []
       else [Instr.runAptInstall (pySorted cfg.packages.dedup)]) = 0 := by
    split_ifs <;> rfl
  have hpath : countFixup (if cfg.path.isEmpty then []
      else [Instr.envPath cfg.path]) = 0 := by
    split_ifs <;> rfl
  have hfix : countFixup (if (scriptDirectiveInstrs pre).isEmpty then []
      else [Instr.user "root", Instr.run chownCmd]) =
      if (scriptDirectiveInstrs pre).isEmpty then 0 else 1 := by
    split_ifs with h
    · rfl
    · simp [countFixup, List.countP_cons, isFixupChown]
  simp only [renderBody, countFixup_append, hmap_env, hmap_copy, hmap_copySrc,
    hmap_label, hpkg, hpath, hfix, countFixup_sdi, countFixup_postbuild cfg,
    countFixup_start cfg]
  have hhead : countFixup [Instr.fromImage "buildpack-deps:bionic"] = 0 := rfl
  have htail : countFixup [Instr.entrypoint "my_entrypoint",
      Instr.cmd "my_command"] = 0 := rfl
  rw [hhead, htail]
  omega

/-! ### Archive lemmas -/

theorem filterTar_hostTarEntry (n : Nat) (f : HostFile) :
    filterTar n (hostTarEntry f) = coreEntry n f.core := rfl

theorem map_core_orderedInsert (f : HostFile) (l : List HostFile) :
    (List.orderedInsert pathLe f l).map HostFile.core =
      List.orderedInsert coreLe f.core (l.map HostFile.core) := by
  induction l with
  | nil => rfl
  | cons b t ih =>
    simp only [List.orderedInsert, List.map_cons]
    by_cases h : pathLe f b
    · rw [if_pos h, if_pos (show coreLe f.core b.core from h)]
      simp
    · rw [if_neg h, if_neg (show ¬coreLe f.core b.core from h)]
      simp only [List.map_cons, ih]

theorem map_core_sortByPath (l : List HostFile) :
    (sortByPath l).map HostFile.core = sortCores (l.map HostFile.core) := by
  induction l with
  | nil => rfl
  | cons f t ih =>
    simp only [sortByPath, sortCores, List.insertionSort, List.map_cons] at *
    rw [map_core_orderedInsert, ih]

theorem buildArchive_eq_of_core (d : String) (b1 b2 s1 s2 : List HostFile)
    (n : Nat) (hb : b1.map HostFile.core = b2.map HostFile.core)
    (hs : s1.map HostFile.core = s2.map HostFile.core) :
    buildArchive d b1 s1 n = buildArchive d b2 s2 n := by
  have e1 : ∀ l : List HostFile,
      (sortByPath l).map (fun f => filterTar n (hostTarEntry f)) =
        (sortCores (l.map HostFile.core)).map (coreEntry n) := by
    intro l
    rw [← map_core_sortByPath, List.map_map]
    rfl
  unfold buildArchive
  rw [e1 b1, e1 s1, e1 b2, e1 s2, hb, hs]

instance : IsTrans HostFile pathLe :=
  ⟨fun _ _ _ hab hbc => lexLe_trans hab hbc⟩

instance : IsTotal HostFile pathLe :=
  ⟨fun a b => lexLe_total a.path.data b.path.data⟩

theorem sortByPath_sorted (l : List HostFile) :
    List.Sorted pathLe (sortByPath l) :=
  List.sorted_insertionSort pathLe l

theorem sortByPath_perm (l : List HostFile) : (sortByPath l).Perm l :=
  List.perm_insertionSort pathLe l

theorem pyStrLe_antisymm {a b : String} (hab : pyStrLe a b)
    (hba : pyStrLe b a) : a = b := by
  cases a; cases b
  exact congrArg String.mk (lexLe_antisymm hab hba)

theorem sorted_perm_nodupPath_eq :
    ∀ l1 l2 : List HostFile, l1.Perm l2 → l1.Sorted pathLe →
      l2.Sorted pathLe → (l1.map HostFile.path).Nodup → l1 = l2 := by
  intro l1
  induction l1 with
  | nil =>
    intro l2 p _ _ _
    exact (List.Perm.eq_nil p.symm).symm
  | cons a t ih =>
    intro l2 p s1 s2 nd
    cases l2 with
    | nil => exact absurd (List.Perm.eq_nil p) (by simp)
    | cons b t2 =>
      have hab : a = b := by
        have hbmem : b ∈ a :: t := p.symm.subset (List.mem_cons_self b t2)
        rcases List.mem_cons.mp hbmem with h | hbt
        · exact h.symm
        · have h1 : pathLe a b := (List.sorted_cons.mp s1).1 b hbt
          have hamem : a ∈ b :: t2 := p.subset (List.mem_cons_self a t)
          rcases List.mem_cons.mp hamem with h | hat2
          · exact h
          · have h2 : pathLe b a := (List.sorted_cons.mp s2).1 a hat2
            have hpq : a.path = b.path := pyStrLe_antisymm h1 h2
            exfalso
            have : a.path ∈ t.map HostFile.path := by
              rw [hpq]
              exact List.mem_map_of_mem HostFile.path hbt
            exact (List.nodup_cons.mp (by simpa using nd)).1 this
      subst hab
      have pt : t.Perm t2 := p.cons_inv
      have := ih t2 pt (List.sorted_cons.mp s1).2 (List.sorted_cons.mp s2).2
        (List.nodup_cons.mp (by simpa using nd)).2
      rw [this]

theorem sortByPath_eq_of_perm (l1 l2 : List HostFile) (p : l1.Perm l2)
    (nd : (l1.map HostFile.path).Nodup) : sortByPath l1 = sortByPath l2 := by
  apply sorted_perm_nodupPath_eq
  · exact (sortByPath_perm l1).trans (p.trans (sortByPath_perm l2).symm)
  · exact sortByPath_sorted l1
  · exact sortByPath_sorted l2
  · exact (((sortByPath_perm l1).map HostFile.path).nodup_iff).mpr nd

theorem buildArchive_eq_of_perm (d : String) (b1 b2 s1 s2 : List HostFile)
    (n : Nat) (pb : b1.Perm b2) (ps : s1.Perm s2)
    (ndb : (b1.map HostFile.path).Nodup) (nds : (s1.map HostFile.path).Nodup) :
    buildArchive d b1 s1 n = buildArchive d b2 s2 n := by
  unfold buildArchive
  rw [sortByPath_eq_of_perm b1 b2 pb ndb, sortByPath_eq_of_perm s1 s2 ps nds]

theorem scriptDirectiveInstrs_cons_ne (u s : String)
    (t : List (String × String)) :
    (scriptDirectiveInstrs ((u, s) :: t)).isEmpty = false := by
  simp only [scriptDirectiveInstrs, groupScripts, groupScriptsAux]
  split_ifs <;> rfl

/-! ## The claims -/

/-- Claim C2, counterexample: for the empty configuration the rendered
document is not just the base-image directive — `render` hardcodes
`cmd="my_command"` and `entrypoint="my_entrypoint"`, so `ENTRYPOINT` and
`CMD` instructions are always emitted. -/
theorem c2_counterexample :
    renderInstrs emptyConfig ≠
      Except.ok [Instr.fromImage "buildpack-deps:bionic"] := by
  decide

/-- Claim C2, amended: for the empty configuration the rendered document
consists of exactly the base-image directive followed by the hardcoded
`ENTRYPOINT` and `CMD` directives, and nothing else. -/
theorem c2_amended :
    renderInstrs emptyConfig =
      Except.ok [Instr.fromImage "buildpack-deps:bionic",
        Instr.entrypoint "my_entrypoint", Instr.cmd "my_command"] := by
  decide

/-- Claim C3, counterexample: with the non-integer memory limit `"512"` the
run does fail with the resource-limit error and never reaches the engine,
but the archive has already been built when the check raises — the claim's
"before any archive is built" is false. -/
theorem c3_counterexample :
    (buildRun emptyConfig (.str "512") [] [] 1000).error =
      some (invalidLimitMsg (.str "512")) ∧
    BuildEvent.archiveBuilt ∈ (buildRun emptyConfig (.str "512") [] [] 1000).events ∧
    (buildRun emptyConfig (.str "512") [] [] 1000).archive ≠ [] := by
  decide

/-- Claim C3, amended: for every non-integer (string) `memory_limit`, once
assembly succeeded the invocation fails with `InvalidResourceLimit` before
any interaction with the build engine, but only after the context archive
has been constructed. -/
theorem c3_amended (cfg : Config) (pre : List (String × String)) (s : String)
    (bsf st : List HostFile) (n : Nat)
    (hok : get_preassemble_scripts cfg.aptTxt = .ok pre) :
    (buildRun cfg (.str s) bsf st n).error = some (invalidLimitMsg (.str s)) ∧
    (buildRun cfg (.str s) bsf st n).events = [BuildEvent.archiveBuilt] ∧
    BuildEvent.engineCalled ∉ (buildRun cfg (.str s) bsf st n).events ∧
    (buildRun cfg (.str s) bsf st n).archive =
      buildArchive (renderText (renderBody cfg pre)) bsf st n := by
  have hrender : renderInstrs cfg = .ok (renderBody cfg pre) := by
    simp [renderInstrs, hok]
  have houtcome : buildRun cfg (.str s) bsf st n =
      { archive := buildArchive (renderText (renderBody cfg pre)) bsf st n,
        events := [BuildEvent.archiveBuilt],
        error := some (invalidLimitMsg (.str s)), containerLimits := [] } := by
    unfold buildRun
    rw [hrender]
  refine ⟨?_, ?_, ?_, ?_⟩
  · rw [houtcome]
  · rw [houtcome]
  · rw [houtcome]
    simp
  · rw [houtcome]

/-- Witness for C3's amended theorem at a concrete configuration. -/
theorem c3_witness :
    (buildRun aptCurlConfig (.str "512") [] [] 1000).error =
      some (invalidLimitMsg (.str "512")) ∧
    (buildRun aptCurlConfig (.str "512") [] [] 1000).events =
      [BuildEvent.archiveBuilt] := by
  have h := c3_amended aptCurlConfig [("root", aptInstallScript "curl")] "512"
    [] [] 1000 rfl
  exact ⟨h.1, h.2.1⟩

/-- Claim C8: for every non-zero integer memory limit `m`, the engine
invocation's resource limits are `{memory: m, memswap: m}` — swap is
disabled by setting both to the same value — and the run reaches the
engine without error. -/
theorem c8_claim (cfg : Config) (pre : List (String × String)) (m : Int)
    (bsf st : List HostFile) (n : Nat)
    (hok : get_preassemble_scripts cfg.aptTxt = .ok pre) (hm : m ≠ 0) :
    (buildRun cfg (.int m) bsf st n).containerLimits =
      [("memory", m), ("memswap", m)] ∧
    (buildRun cfg (.int m) bsf st n).error = none ∧
    (buildRun cfg (.int m) bsf st n).events =
      [BuildEvent.archiveBuilt, BuildEvent.engineCalled] := by
  have hrender : renderInstrs cfg = .ok (renderBody cfg pre) := by
    simp [renderInstrs, hok]
  have houtcome : buildRun cfg (.int m) bsf st n =
      { archive := buildArchive (renderText (renderBody cfg pre)) bsf st n,
        events := [BuildEvent.archiveBuilt, BuildEvent.engineCalled],
        error := none,
        containerLimits := if m = 0 then [] else [("memory", m), ("memswap", m)] } := by
    unfold buildRun
    rw [hrender]
  refine ⟨?_, ?_, ?_⟩
  · rw [houtcome]
    simp [hm]
  · rw [houtcome]
  · rw [houtcome]

/-- Witness for C8 at `memory_limit = 512`. -/
theorem c8_witness :
    (buildRun emptyConfig (.int 512) [] [] 1000).containerLimits =
      [("memory", 512), ("memswap", 512)] :=
  (c8_claim emptyConfig [] 512 [] [] 1000 rfl (by decide)).1

/-- Claim C4, counterexample: a non-empty pre-assembly file manifest with
no `apt.txt` yields a rendered document with zero ownership-fixup
instructions — the fixup is keyed on the pre-assembly *script directives*,
not on the file copies, so the claimed "iff the file copies are non-empty"
fails. -/
theorem c4_counterexample :
    c4Config.preassemble_script_files ≠ [] ∧
    (renderInstrs c4Config).toOption.map countFixup = some 0 := by
  decide

/-- Claim C4, amended: the rendered document contains exactly one
ownership-recursive-fixup instruction iff the pre-assembly script
directive list is non-empty (and zero otherwise, regardless of the file
manifest); when present, the fixup `RUN chown` appears contiguously after
a `USER root` switch. -/
theorem c4_amended (cfg : Config) (pre : List (String × String))
    (instrs : List Instr)
    (hpre : get_preassemble_scripts cfg.aptTxt = .ok pre)
    (hrender : renderInstrs cfg = .ok instrs) :
    countFixup instrs = (if (scriptDirectiveInstrs pre).isEmpty then 0 else 1) ∧
    ((scriptDirectiveInstrs pre).isEmpty = false →
      [Instr.user "root", Instr.run chownCmd] <:+: instrs) := by
  simp only [renderInstrs, hpre, Except.ok.injEq] at hrender
  subst hrender
  refine ⟨countFixup_renderBody cfg pre, fun hne => ?_⟩
  refine ⟨[Instr.fromImage "buildpack-deps:bionic"]
    ++ (if (pySorted cfg.packages.dedup).isEmpty then []
        else [Instr.runAptInstall (pySorted cfg.packages.dedup)])
    ++ cfg.build_env.map (fun kv => Instr.env kv.1 kv.2)
    ++ (if cfg.path.isEmpty then [] else [Instr.envPath cfg.path])
    ++ (dictsort cfg.build_script_files).map (fun p => Instr.copy p.1 p.2)
    ++ scriptDirectiveInstrs cfg.build_scripts
    ++ cfg.env.map (fun kv => Instr.env kv.1 kv.2)
    ++ (dictsort cfg.preassemble_script_files).map (fun p => Instr.copySrc p.1 p.2),
    scriptDirectiveInstrs pre
    ++ scriptDirectiveInstrs cfg.assemble_scripts
    ++ (dictsort cfg.labels).map (fun p => Instr.label p.1 p.2)
    ++ (get_post_build_scripts cfg).flatMap
        (fun s => [Instr.run ("chmod +x " ++ s), Instr.run ("./" ++ s)])
    ++ (match get_start_script cfg with
        | some s => [Instr.run ("chmod +x \"" ++ s ++ "\""),
                     Instr.env "R2D_ENTRYPOINT" ("\"" ++ s ++ "\"")]
        | none => [])
    ++ [Instr.entrypoint "my_entrypoint", Instr.cmd "my_command"], ?_⟩
  simp only [renderBody, hne, Bool.false_eq_true, if_false, List.append_assoc]

/-- Witness for C4's amended theorem: with an `apt.txt` present the fixup
occurs exactly once. -/
theorem c4_witness :
    countFixup (renderBody aptCurlConfig [("root", aptInstallScript "curl")]) = 1 := by
  have h := (c4_amended aptCurlConfig [("root", aptInstallScript "curl")]
    (renderBody aptCurlConfig [("root", aptInstallScript "curl")]) rfl rfl).1
  rw [h, scriptDirectiveInstrs_cons_ne]
  rfl

/-- Claim C5, counterexample: for the all-same-user sequence
`[("root", "echo hi")]` of length 1 the grouper emits zero user-switch
directives, not the claimed exactly one — `last_user` starts at `"root"`,
so no switch is emitted for root-only sequences. -/
theorem c5_counterexample :
    (∀ p ∈ [("root", "echo hi")], p.1 = "root") ∧
    ¬((groupScripts [("root", "echo hi")]).countP (·.isUserSwitch) = 1) := by
  decide

/-- Claim C5, amended: the grouper never emits two consecutive identical
user-switch directives; and for a non-empty all-same-user sequence of
length N it emits N run directives together with exactly one user switch
when the common user differs from `"root"`, and zero user switches when
the common user is `"root"`. -/
theorem c5_claim (steps : List (String × String)) (u : String) :
    List.Chain' (fun a b => ∀ v, a = GDirective.userSwitch v →
      b ≠ GDirective.userSwitch v) (groupScripts steps) ∧
    (steps ≠ [] → (∀ p ∈ steps, p.1 = u) →
      (groupScripts steps).countP (·.isUserSwitch) =
        (if u = "root" then 0 else 1) ∧
      (groupScripts steps).countP (·.isRunScript) = steps.length) := by
  constructor
  · refine (groupAux_chain "root" steps).imp ?_
    intro a b h v hav hbv
    have ha : a.isUserSwitch = true := by rw [hav]; rfl
    have hb : b.isUserSwitch = false := h ha
    rw [hbv] at hb
    exact absurd hb (by simp [GDirective.isUserSwitch])
  · intro hne hall
    by_cases hu : u = "root"
    · subst hu
      rw [if_pos rfl]
      exact groupAux_counts_same "root" steps hall
    · rw [if_neg hu]
      exact groupAux_counts_diff u "root" steps hall hne (fun h => hu h.symm)

/-- Witness for C5's amended theorem on a two-step non-root sequence. -/
theorem c5_witness :
    (groupScripts [("alice", "a"), ("alice", "b")]).countP (·.isUserSwitch) = 1 ∧
    (groupScripts [("alice", "a"), ("alice", "b")]).countP (·.isRunScript) = 2 := by
  have h := (c5_claim [("alice", "a"), ("alice", "b")] "alice").2
    (by decide) (by decide)
  rw [if_neg (by decide : ¬("alice" : String) = "root")] at h
  exact h

/-- Claim C7: for every raw `apt.txt` line, the validator strips the text
after `#` and trims whitespace; an empty remainder is skipped without
error; a remainder whose leading character is outside `[a-z0-9.+-]` makes
the whole parse fail with the `InvalidPackageName` message carrying the
offending value, render fails with the same error, and the build run
aborts before any archive is built or engine interaction happens (no
partial package list is produced). -/
theorem c7_claim (l : String) (rest : List String) (cfg : Config) :
    (pyStrip (partBeforeHash l) = "" →
      parseAptLines (l :: rest) = parseAptLines rest) ∧
    (∀ c cs, (pyStrip (partBeforeHash l)).data = c :: cs →
      aptCharOk c = false →
      parseAptLines (l :: rest) =
        .error (invalidPkgMsg (pyStrip (partBeforeHash l))) ∧
      (cfg.aptTxt = some (l :: rest) →
        renderInstrs cfg = .error (invalidPkgMsg (pyStrip (partBeforeHash l))) ∧
        ∀ (ml : PyMemLimit) (bsf st : List HostFile) (n : Nat),
          (buildRun cfg ml bsf st n).error =
            some (invalidPkgMsg (pyStrip (partBeforeHash l))) ∧
          (buildRun cfg ml bsf st n).events = [] ∧
          (buildRun cfg ml bsf st n).archive = [])) := by
  constructor
  · intro h
    have hE : (pyStrip (partBeforeHash l)).data.isEmpty = true := by
      rw [h]; rfl
    simp [parseAptLines, hE]
  · intro c cs hc hok
    have hM : matchAptName (pyStrip (partBeforeHash l)) = false := by
      unfold matchAptName
      rw [hc]
      exact hok
    have hE : (pyStrip (partBeforeHash l)).data.isEmpty = false := by
      rw [hc]; rfl
    have hparse : parseAptLines (l :: rest) =
        .error (invalidPkgMsg (pyStrip (partBeforeHash l))) := by
      simp [parseAptLines, hE, hM]
    refine ⟨hparse, fun hapt => ?_⟩
    have hgps : get_preassemble_scripts cfg.aptTxt =
        .error (invalidPkgMsg (pyStrip (partBeforeHash l))) := by
      rw [hapt]
      simp [get_preassemble_scripts, hparse]
    have hrender : renderInstrs cfg =
        .error (invalidPkgMsg (pyStrip (partBeforeHash l))) := by
      simp [renderInstrs, hgps]
    refine ⟨hrender, fun ml bsf st n => ?_⟩
    have houtcome : buildRun cfg ml bsf st n =
        { archive := [], events := [],
          error := some (invalidPkgMsg (pyStrip (partBeforeHash l))),
          containerLimits := [] } := by
      unfold buildRun
      rw [hrender]
    rw [houtcome]
    exact ⟨rfl, rfl, rfl⟩

/-- Witness for C7: a comment-only line is skipped, and a line starting
with `!` aborts the parse with the offending value in the message. -/
theorem c7_witness :
    parseAptLines ["   # comment", "curl"] = parseAptLines ["curl"] ∧
    parseAptLines ["!bad", "curl"] = .error (invalidPkgMsg "!bad") := by
  constructor
  · exact (c7_claim "   # comment" ["curl"] emptyConfig).1 (by decide)
  · have h := ((c7_claim "!bad" ["curl"] emptyConfig).2 '!' ['b', 'a', 'd']
      (by decide) (by decide)).1
    have hps : pyStrip (partBeforeHash "!bad") = "!bad" := by decide
    rw [hps] at h
    exact h

set_option maxRecDepth 8000 in
/-- Claim C1, counterexample: two archiver runs whose staged file differs
only in the modification time the host filesystem reports (same path,
contents, mode, ownership) produce different archives — `_filter_tar`
normalizes ownership but leaves `mtime` untouched, so the claimed
timestamp-independence fails. -/
theorem c1_counterexample :
    hostFileC = { hostFileA with mtime := 1700000001 } ∧
    buildArchive "FROM buildpack-deps:bionic" [] [hostFileA] 1000 ≠
      buildArchive "FROM buildpack-deps:bionic" [] [hostFileC] 1000 := by
  refine ⟨rfl, ?_⟩
  decide

/-- Claim C1, amended: the archive is a function of the rendered document,
the `NB_UID` build arg, and the manifest part of every staged file (path,
contents, mode, mtime) alone — host-reported ownership metadata (uid, gid,
owner/group names) never influences it, and neither does the order the
files are handed in (they are sorted by path), for duplicate-free path
sets. Timestamp-independence does not hold: equality of the staged files'
`mtime`s is part of the hypothesis. -/
theorem c1_amended (d : String) (b1 b2 s1 s2 : List HostFile) (n : Nat) :
    (b1.map HostFile.core = b2.map HostFile.core →
      s1.map HostFile.core = s2.map HostFile.core →
      buildArchive d b1 s1 n = buildArchive d b2 s2 n) ∧
    (b1.Perm b2 → s1.Perm s2 → (b1.map HostFile.path).Nodup →
      (s1.map HostFile.path).Nodup →
      buildArchive d b1 s1 n = buildArchive d b2 s2 n) :=
  ⟨fun hb hs => buildArchive_eq_of_core d b1 b2 s1 s2 n hb hs,
   fun pb ps ndb nds => buildArchive_eq_of_perm d b1 b2 s1 s2 n pb ps ndb nds⟩

/-- Witness for C1's amended theorem: hosts differing in ownership
metadata, and in file iteration order, produce the identical archive. -/
theorem c1_witness :
    buildArchive "FROM buildpack-deps:bionic" [] [hostFileA] 1000 =
      buildArchive "FROM buildpack-deps:bionic" [] [hostFileB] 1000 ∧
    buildArchive "FROM buildpack-deps:bionic" [] [hostFileA, hostFileD] 1000 =
      buildArchive "FROM buildpack-deps:bionic" [] [hostFileD, hostFileA] 1000 := by
  constructor
  · exact (c1_amended "FROM buildpack-deps:bionic" [] [] [hostFileA]
      [hostFileB] 1000).1 rfl (by decide)
  · exact (c1_amended "FROM buildpack-deps:bionic" [] [] [hostFileA, hostFileD]
      [hostFileD, hostFileA] 1000).2 (List.Perm.refl _) (by decide) (by decide)
      (by decide)

set_option maxRecDepth 8000 in
/-- Claim C6, counterexample: a valid `apt.txt` listing `curl` twice yields
an install instruction whose package list contains `curl` twice — the
apt.txt-sourced list is sorted but not deduplicated, so "each package
exactly once" fails. -/
theorem c6_counterexample :
    parseAptLines ["curl", "curl"] = .ok ["curl", "curl"] ∧
    get_preassemble_scripts (some ["curl", "curl"]) =
      .ok [("root", aptInstallScript "curl curl")] ∧
    (pySorted ["curl", "curl"]).count "curl" = 2 := by
  decide

/-- Claim C6, amended: the explicit packages set is rendered sorted with
each package exactly once regardless of input order or duplicates (the
set deduplicates, `sorted` orders); the apt.txt-sourced list is rendered
sorted but with input multiplicities preserved (duplicates are not
removed). -/
theorem c6_amended (cfg : Config) (lines pkgs : List String) :
    (List.Sorted pyStrLe (pySorted cfg.packages.dedup) ∧
     (pySorted cfg.packages.dedup).Nodup ∧
     (∀ x, x ∈ pySorted cfg.packages.dedup ↔ x ∈ cfg.packages) ∧
     (cfg.packages ≠ [] → ∀ pre,
        Instr.runAptInstall (pySorted cfg.packages.dedup) ∈ renderBody cfg pre)) ∧
    (parseAptLines lines = .ok pkgs →
      get_preassemble_scripts (some lines) =
        .ok [("root", aptInstallScript (String.intercalate " " (pySorted pkgs)))] ∧
      List.Sorted pyStrLe (pySorted pkgs) ∧
      ∀ x, (pySorted pkgs).count x = pkgs.count x) := by
  constructor
  · refine ⟨pySorted_sorted _, ?_, ?_, ?_⟩
    · exact ((pySorted_perm cfg.packages.dedup).nodup_iff).mpr
        (List.nodup_dedup cfg.packages)
    · intro x
      rw [(pySorted_perm cfg.packages.dedup).mem_iff, List.mem_dedup]
    · intro hp pre
      obtain ⟨x, hx⟩ := List.exists_mem_of_ne_nil cfg.packages hp
      have hxm : x ∈ pySorted cfg.packages.dedup := by
        rw [(pySorted_perm cfg.packages.dedup).mem_iff, List.mem_dedup]
        exact hx
      have hne : (pySorted cfg.packages.dedup).isEmpty = false := by
        cases he : pySorted cfg.packages.dedup with
        | nil => rw [he] at hxm; cases hxm
        | cons a t => rfl
      simp only [renderBody, hne, Bool.false_eq_true, if_false]
      simp [List.mem_append]
  · intro hparse
    refine ⟨?_, pySorted_sorted pkgs, fun x => (pySorted_perm pkgs).count_eq x⟩
    simp [get_preassemble_scripts, hparse]

/-- Witness for C6's amended theorem on an unsorted two-package
`apt.txt`. -/
theorem c6_witness :
    get_preassemble_scripts (some ["git", "curl"]) =
      .ok [("root", aptInstallScript
        (String.intercalate " " (pySorted ["git", "curl"])))] ∧
    List.Sorted pyStrLe (pySorted ["git", "curl"]) := by
  have h := (c6_amended emptyConfig ["git", "curl"] ["git", "curl"]).2 (by decide)
  exact ⟨h.1, h.2.1⟩

set_option maxRecDepth 8000 in
/-- Claim C9: package-name validation constrains only the leading prefix —
the line `curl; rm -rf /` has a valid leading character, contains `;` and
spaces (both outside the class), passes validation, and is interpolated
verbatim into the shell-executed install command. -/
theorem c9_claim :
    matchAptName "curl; rm -rf /" = true ∧
    aptCharOk ';' = false ∧
    aptCharOk ' ' = false ∧
    get_preassemble_scripts (some ["curl; rm -rf /"]) =
      .ok [("root", aptInstallScript "curl; rm -rf /")] := by
  refine ⟨rfl, rfl, rfl, ?_⟩
  decide

/-- Claim C10: when `apt.txt` exists but every line is blank after comment
stripping, the pre-assembly script list still holds exactly one
`("root", install)` step with an empty package list, so the install
instruction and (through the template's condition on pre-assembly script
directives) exactly one ownership-fixup instruction are emitted. -/
theorem c10_claim (lines : List String) (cfg : Config)
    (hblank : ∀ l ∈ lines, pyStrip (partBeforeHash l) = "")
    (hapt : cfg.aptTxt = some lines) :
    get_preassemble_scripts cfg.aptTxt = .ok [("root", aptInstallScript "")] ∧
    renderInstrs cfg = .ok (renderBody cfg [("root", aptInstallScript "")]) ∧
    countFixup (renderBody cfg [("root", aptInstallScript "")]) = 1 := by
  have hparse : ∀ ls : List String,
      (∀ l ∈ ls, pyStrip (partBeforeHash l) = "") → parseAptLines ls = .ok [] := by
    intro ls
    induction ls with
    | nil => intro _; rfl
    | cons l t ih =>
      intro hb
      have h := hb l (by simp)
      have hE : (pyStrip (partBeforeHash l)).data.isEmpty = true := by
        rw [h]; rfl
      have ht := ih (fun x hx => hb x (List.mem_cons_of_mem _ hx))
      simp [parseAptLines, hE, ht]
  have hpre : get_preassemble_scripts cfg.aptTxt =
      .ok [("root", aptInstallScript "")] := by
    rw [hapt]
    simp [get_preassemble_scripts, hparse lines hblank]
    rfl
  refine ⟨hpre, by simp [renderInstrs, hpre], ?_⟩
  rw [countFixup_renderBody, scriptDirectiveInstrs_cons_ne]
  rfl

/-- Witness for C10 on a comment-and-whitespace-only `apt.txt`. -/
theorem c10_witness :
    get_preassemble_scripts c10Config.aptTxt =
      .ok [("root", aptInstallScript "")] ∧
    countFixup (renderBody c10Config [("root", aptInstallScript "")]) = 1 := by
  have h := c10_claim ["# comment only", "   ", "  # another"] c10Config
    (by decide) rfl
  exact ⟨h.1, h.2.2⟩

end Plain
